import Mathlib

/-!
Verification of the OverlayMaps storefront core: catalog normalization
(`lib/printful.js`), the variant resolver (`components/ProductModal.js`),
the cart store (`context/CartContext.js` and the product-page script),
the shipping invalidation rules and the checkout validation endpoint
(`pages/api/create-checkout.js`).  JavaScript strings are modelled as
Lean `String` (lists of characters), JS numbers that carry money or
quantities as `ℚ`, nullable values as `Option`, and JS truthiness of
strings/numbers explicitly where the source relies on it.
-/

namespace OverlayMaps

/-! ### JS string primitives used by the source -/

/-- Character class of the JS regex `\s` (common members; the source only
ever meets ASCII whitespace in variant names). -/
def isJsSpace (c : Char) : Bool :=
  c == ' ' || c == '\t' || c == '\n' || c == '\r' || c == '\x0b' || c == '\x0c'

/-- Character class of the JS regex `[\s\-\/]` used by `parseVariantName`. -/
def isSepChar (c : Char) : Bool :=
  isJsSpace c || c == '-' || c == '/'

/-- JS `String.prototype.trim` on the character list: strip leading and
trailing whitespace. -/
def trimL (l : List Char) : List Char :=
  ((l.dropWhile isJsSpace).reverse.dropWhile isJsSpace).reverse

/-- JS `s.trim()`. -/
def jsTrim (s : String) : String := ⟨trimL s.data⟩

/-- One step of `String.prototype.replace(pat, '')` with a nonempty plain
string pattern: remove the leftmost occurrence of `pat`, if any. -/
def replaceFirstL (pat : List Char) : List Char → List Char
  | [] => []
  | c :: rest =>
    if pat.isPrefixOf (c :: rest) then List.drop pat.length (c :: rest)
    else c :: replaceFirstL pat rest

/-- JS `s.replace(pat, '')` for a plain (non-regex) pattern string:
removes the first occurrence only; an empty pattern matches at index 0
and removes nothing. -/
def jsReplaceFirst (s pat : String) : String :=
  match pat.data with
  | [] => s
  | _ :: _ => ⟨replaceFirstL pat.data s.data⟩

/-- Splitting worker for `String.prototype.split(sep)` with a nonempty
separator: leftmost, non-overlapping occurrences.  `acc` holds the
current fragment in reverse; the `fuel` argument only makes the
recursion structural (each step consumes at least one character, so
`l.length + 1` fuel is always enough). -/
def splitSepFuel (sep : List Char) : Nat → List Char → List Char → List (List Char)
  | 0, l, acc => [acc.reverse ++ l]
  | _ + 1, [], acc => [acc.reverse]
  | fuel + 1, c :: rest, acc =>
    if sep.isPrefixOf (c :: rest) then
      acc.reverse :: splitSepFuel sep fuel (List.drop sep.length (c :: rest)) []
    else
      splitSepFuel sep fuel rest (c :: acc)

/-- JS `s.split(sep)`.  An empty separator splits into single characters
(never reached by the source, which always splits on `" / "`). -/
def jsSplit (s sep : String) : List String :=
  match sep.data with
  | [] => s.data.map fun c => ⟨[c]⟩
  | c :: cs => (splitSepFuel (c :: cs) (s.data.length + 1) s.data []).map fun l => ⟨l⟩

/-- JS `s.toLowerCase()` (ASCII case folding, which is all the source's
category/country tables need). -/
def jsToLower (s : String) : String := ⟨s.data.map Char.toLower⟩

/-- Worker for JS `hay.includes(needle)`. -/
def containsSub (needle : List Char) : List Char → Bool
  | [] => needle.isEmpty
  | c :: rest => needle.isPrefixOf (c :: rest) || containsSub needle rest

/-- JS `hay.includes(needle)`. -/
def jsIncludes (hay needle : String) : Bool := containsSub needle.data hay.data

/-- JS `s || d` for strings: `d` when `s` is empty (falsy), else `s`. -/
def jsStrOrD (s d : String) : String := if s = "" then d else s

/-- JS `s || d` where `s` is a nullable string and `d` a plain string. -/
def jsOptStrOrD (s : Option String) (d : String) : String :=
  match s with
  | some t => jsStrOrD t d
  | none => d

/-- Truthiness filter for a nullable string: `null` and `""` are falsy. -/
def jsStrTruthy : Option String → Option String
  | some s => if s = "" then none else some s
  | none => none

/-! ### Variant option parsing (`parseVariantName`, lib/printful.js:162-175) -/

/-- The `options` record `{primary, secondary}` produced by
`parseVariantName`. -/
structure VOptions where
  primary : String
  secondary : Option String
deriving DecidableEq, Repr

/-- The `optionStr` computed by `parseVariantName`
(lib/printful.js:163-167): remove the first occurrence of the product
name, strip leading separator characters, trim; fall back to the raw
name when that leaves an empty string. -/
def parseOptionStr (variantName productName : String) : String :=
  let s1 := jsReplaceFirst variantName productName
  let s2 : String := ⟨s1.data.dropWhile isSepChar⟩
  let s3 := jsTrim s2
  if s3 = "" then variantName else s3

/-- The `parts` computed by `parseVariantName` (lib/printful.js:168-171):
split `optionStr` on the literal `" / "`, trim the parts and drop the
blank ones. -/
def parseParts (variantName productName : String) : List String :=
  ((jsSplit (parseOptionStr variantName productName) " / ").map jsTrim).filter fun t => t != ""

/-- Embeds `parseVariantName(variantName, productName)` (lib/printful.js:162-175):
two-or-more parts give `{first, second}`, one part gives `{part, null}`,
zero parts give `{optionStr, null}`. -/
def parseVariantName (variantName productName : String) : VOptions :=
  match parseParts variantName productName with
  | a :: b :: _ => ⟨a, some b⟩
  | [a] => ⟨a, none⟩
  | [] => ⟨parseOptionStr variantName productName, none⟩

/-- The parsing procedure exactly as claim C1 words it: the product name is
stripped only when it occurs as a *prefix* of the raw variant name
(followed by stripping the leading separators and trimming); the rest of
the procedure is identical. -/
def parseVariantNameClaimC1 (variantName productName : String) : VOptions :=
  let s1 := if productName.data.isPrefixOf variantName.data then
      (⟨variantName.data.drop productName.data.length⟩ : String)
    else variantName
  let s2 : String := ⟨s1.data.dropWhile isSepChar⟩
  let s3 := jsTrim s2
  let optionStr := if s3 = "" then variantName else s3
  let parts := ((jsSplit optionStr " / ").map jsTrim).filter fun t => t != ""
  match parts with
  | a :: b :: _ => ⟨a, some b⟩
  | [a] => ⟨a, none⟩
  | [] => ⟨optionStr, none⟩

/-- The amended wording of claim C1: the product's name is removed at its
*first occurrence anywhere* in the raw variant name (not only as a
prefix), then leading `-`, `/` and whitespace are stripped and the
result trimmed; an empty result falls back to the raw name; the
remainder is split on `" / "` with blank parts dropped, and the part
count decides the option record. -/
def parseVariantNameAmendedC1 (variantName productName : String) : VOptions :=
  let afterRemoval := jsReplaceFirst variantName productName
  let afterSeps : String := ⟨afterRemoval.data.dropWhile isSepChar⟩
  let stripped := jsTrim afterSeps
  let optionStr := if stripped = "" then variantName else stripped
  let parts := ((jsSplit optionStr " / ").map jsTrim).filter fun t => t != ""
  match parts with
  | first :: second :: _ => ⟨first, some second⟩
  | [only] => ⟨only, none⟩
  | [] => ⟨optionStr, none⟩

/-! ### Catalog normalizer (lib/printful.js) -/

/-- A file entry of a raw sync variant (`v.files[i]`): its `type` tag and
nullable `preview_url`. -/
structure RawFile where
  ftype : String
  preview_url : Option String
deriving DecidableEq, Repr

/-- A raw sync variant as delivered by the catalog source.  `retail_price`
is `none` for a missing/null price; a present price is carried as the
rational the JS `parseFloat` produces. -/
structure RawVariant where
  id : Nat
  name : String
  sku : Option String
  retail_price : Option ℚ
  currency : Option String
  availability_status : String
  files : List RawFile
deriving DecidableEq, Repr

/-- A raw sync product (`sync_product`). -/
structure RawProduct where
  id : Nat
  name : String
  thumbnail_url : Option String
deriving DecidableEq, Repr

/-- A normalized variant (the records built in `transformProduct`,
lib/printful.js:81-93). -/
structure Variant where
  id : Nat
  previewUrl : Option String
  name : String
  sku : String
  price : ℚ
  currency : String
  options : VOptions
  available : Bool
deriving DecidableEq, Repr

/-- An entry of a product's `images` list
(`extractProductImages`, lib/printful.js:187-205). -/
structure ImageEntry where
  variantId : Option Nat
  url : String
  isDefault : Bool
deriving DecidableEq, Repr

/-- A normalized product (the aggregate returned by `transformProduct`,
lib/printful.js:99-112). -/
structure Product where
  id : Nat
  slug : String
  name : String
  thumbnail : Option String
  images : List ImageEntry
  category : String
  country : Option String
  minPrice : ℚ
  maxPrice : ℚ
  currency : String
  variants : List Variant
  variantGroups : List (String × List Variant)
deriving DecidableEq, Repr

/-- Replace each run of characters satisfying `p` by the single character
`rep` (worker for the `\s+ → '-'` and `-+ → '-'` regex replaces of
`slugify`).  `inRun` records whether the previous character was in a run. -/
def squashRuns (p : Char → Bool) (rep : Char) : List Char → Bool → List Char
  | [], _ => []
  | c :: rest, inRun =>
    if p c then
      (if inRun then squashRuns p rep rest true else rep :: squashRuns p rep rest true)
    else c :: squashRuns p rep rest false

/-- Embeds `slugify(name)` (lib/printful.js:6-13): lowercase, drop characters
outside `[a-z0-9\s-]`, turn whitespace runs into `-`, collapse `-` runs,
trim. -/
def slugify (name : String) : String :=
  let lowered := name.data.map Char.toLower
  let kept := lowered.filter fun c =>
    (decide ('a' ≤ c) && decide (c ≤ 'z')) || (decide ('0' ≤ c) && decide (c ≤ '9'))
      || isJsSpace c || c == '-'
  let dashed := squashRuns isJsSpace '-' kept false
  let collapsed := squashRuns (fun c => c == '-') '-' dashed false
  ⟨trimL collapsed⟩

/-- Embeds `inferCategory(name)` (lib/printful.js:115-130): ordered
case-insensitive substring rules. -/
def inferCategory (name : String) : String :=
  let lower := jsToLower name
  if jsIncludes lower "t-shirt" || jsIncludes lower "hoodie" || jsIncludes lower "shirt" then
    "apparel"
  else if jsIncludes lower "poster" || jsIncludes lower "print" || jsIncludes lower "framed" then
    "posters"
  else if jsIncludes lower "sticker" then "stickers"
  else if jsIncludes lower "notebook" || jsIncludes lower "stationary"
      || jsIncludes lower "mug" || jsIncludes lower "tote" then
    "stationary"
  else "other"

/-- The `KNOWN_COUNTRIES` gazetteer (lib/printful.js:132-153), in source
order. -/
def KNOWN_COUNTRIES : List String := [
  "Argentina", "Bolivia", "Brasil", "Brazil", "Canada", "Chile", "Colombia",
  "Costa Rica", "Cuba", "Ecuador", "Guatemala", "Mexico", "Panama", "Paraguay",
  "Peru", "Uruguay", "Venezuela", "United States", "USA",
  "Albania", "Austria", "Belgium", "Bosnia", "Bulgaria", "Catalunya", "Croatia",
  "Cyprus", "Czechia", "Denmark", "Estonia", "Finland", "France", "Germany",
  "Greece", "Hungary", "Iceland", "Ireland", "Italy", "Kosovo", "Latvia",
  "Lithuania", "Luxembourg", "Malta", "Moldova", "Montenegro", "Netherlands",
  "North Macedonia", "Norway", "Poland", "Portugal", "Romania", "Serbia",
  "Slovakia", "Slovenia", "Spain", "Sweden", "Switzerland", "Ukraine",
  "United Kingdom", "UK",
  "Afghanistan", "China", "India", "Indonesia", "Iran", "Iraq", "Israel",
  "Japan", "Jordan", "Kazakhstan", "South Korea", "Lebanon", "Malaysia",
  "Mongolia", "Myanmar", "Nepal", "Pakistan", "Philippines", "Saudi Arabia",
  "Singapore", "Sri Lanka", "Syria", "Taiwan", "Thailand", "Turkey",
  "Vietnam", "Yemen", "Isfahan",
  "Algeria", "Angola", "Cameroon", "Congo", "Egypt", "Ethiopia", "Ghana",
  "Kenya", "Libya", "Morocco", "Mozambique", "Nigeria", "Senegal",
  "South Africa", "Sudan", "Tanzania", "Tunisia", "Uganda", "Zimbabwe",
  "Australia", "New Zealand",
  "World"]

/-- Embeds `inferCountry(name)` (lib/printful.js:155-160): first gazetteer entry
contained (case-insensitively) in the name, else null. -/
def inferCountry (name : String) : Option String :=
  KNOWN_COUNTRIES.find? fun country => jsIncludes (jsToLower name) (jsToLower country)

/-- The preview-url chain of `transformProduct` and `extractProductImages`:
`files.find(type === 'preview')?.preview_url || files[0]?.preview_url || null`,
with empty strings falsy. -/
def variantPreviewUrl (v : RawVariant) : Option String :=
  match jsStrTruthy ((v.files.find? fun f => f.ftype == "preview").bind RawFile.preview_url) with
  | some u => some u
  | none => jsStrTruthy (v.files.head?.bind RawFile.preview_url)

/-- Embeds `extractProductImages(sync_product, sync_variants)`
(lib/printful.js:187-205): thumbnail first (when truthy, marked default),
then each variant's preview url in catalog order, deduplicated by exact
url string. -/
def extractProductImages (sp : RawProduct) (svs : List RawVariant) : List ImageEntry :=
  let start : List String × List ImageEntry :=
    match sp.thumbnail_url with
    | some t => if t = "" then ([], []) else ([t], [⟨none, t, true⟩])
    | none => ([], [])
  (svs.foldl (fun st v =>
    match variantPreviewUrl v with
    | some url => if st.1.contains url then st else (url :: st.1, st.2 ++ [⟨some v.id, url, false⟩])
    | none => st) start).2

/-- One normalized variant record (the `.map` body of `transformProduct`,
lib/printful.js:81-93).  The price is only read on variants that passed
the price filter, where `retail_price` is present. -/
def mkVariant (sp : RawProduct) (v : RawVariant) : Variant where
  id := v.id
  previewUrl := variantPreviewUrl v
  name := v.name
  sku := jsOptStrOrD v.sku ""
  price := v.retail_price.getD 0
  currency := jsOptStrOrD v.currency "EUR"
  options := parseVariantName v.name sp.name
  available := v.availability_status != "discontinued"

/-- Insert a variant into the bucket keyed `k`, creating the bucket at the
end on first sight — the JS-object insertion semantics of
`groupVariants`'s `groups[key].push(v)`. -/
def insertGroup (gs : List (String × List Variant)) (k : String) (v : Variant) :
    List (String × List Variant) :=
  match gs with
  | [] => [(k, [v])]
  | g :: rest => if g.1 = k then (g.1, g.2 ++ [v]) :: rest else g :: insertGroup rest k v

/-- Embeds `groupVariants(variants)` (lib/printful.js:177-185): bucket the
variants by `options.primary`, buckets ordered by first appearance. -/
def groupVariants (vs : List Variant) : List (String × List Variant) :=
  vs.foldl (fun gs v => insertGroup gs v.options.primary v) []

/-- JS `Math.min(...prices)` over the (always nonempty) price list. -/
def listMin : List ℚ → ℚ
  | [] => 0
  | p :: ps => ps.foldl min p

/-- JS `Math.max(...prices)` over the (always nonempty) price list. -/
def listMax : List ℚ → ℚ
  | [] => 0
  | p :: ps => ps.foldl max p

/-- Embeds `transformProduct(sync_product, sync_variants)`
(lib/printful.js:78-113): filter the raw variants to those with a
defined retail price, normalize them, return `null` when none survive,
otherwise assemble the product aggregate. -/
def transformProduct (sp : RawProduct) (svs : List RawVariant) : Option Product :=
  let variants := (svs.filter fun v => v.retail_price.isSome).map (mkVariant sp)
  if variants.isEmpty then none
  else some {
    id := sp.id
    slug := toString sp.id ++ "-" ++ slugify sp.name
    name := sp.name
    thumbnail := sp.thumbnail_url
    images := extractProductImages sp svs
    category := inferCategory sp.name
    country := inferCountry sp.name
    minPrice := listMin (variants.map Variant.price)
    maxPrice := listMax (variants.map Variant.price)
    currency := match variants.head? with
      | some v0 => jsStrOrD v0.currency "EUR"
      | none => "EUR"
    variants := variants
    variantGroups := groupVariants variants }

/-- The pure tail of `fetchPrintfulCatalog` (lib/printful.js:52-65): each
fetched product detail is transformed and the `null` results are dropped
by `products.filter(Boolean)`. -/
def catalogOf (pages : List (RawProduct × List RawVariant)) : List Product :=
  (pages.map fun pr => transformProduct pr.1 pr.2).filterMap id

/-! ### Variant resolver (components/ProductModal.js) -/

/-- Embeds `selectSecondary(variantId)` (components/ProductModal.js:54-58): the
variant that becomes selected — looked up by id over *all* of the
product's variants; `none` models the `undefined` result of a failed
`find`. -/
def selectSecondary (p : Product) (variantId : Nat) : Option Variant :=
  p.variants.find? fun v => v.id == variantId

/-- The selected-group lookup that claim C5 describes: the bucket of
`variantGroups` keyed by the currently selected primary label. -/
def lookupGroup (p : Product) (k : String) : List Variant :=
  ((p.variantGroups.find? fun g => g.1 == k).map Prod.snd).getD []

/-- Models `selectSecondary` exactly as claim C5 words it: the lookup is
restricted to the currently selected primary group and a miss is a
`NotFoundError` (modelled as `none`). -/
def selectSecondaryClaimC5 (p : Product) (selectedPrimary : String) (variantId : Nat) :
    Option Variant :=
  (lookupGroup p selectedPrimary).find? fun v => v.id == variantId

/-- Embeds `resolveImage(variant, p)` (components/ProductModal.js:34-43), for a
present product and variant: exact per-variant image, else first image
owned by a variant of the same primary group (`groupMatch?.url ||
p.thumbnail || ''` with JS falsiness), else thumbnail, else `""`. -/
def resolveImage (p : Product) (variant : Variant) : String :=
  match p.images.find? fun i => i.variantId == some variant.id with
  | some exact => exact.url
  | none =>
    let sameGroupIds :=
      ((p.variants.filter fun v => v.options.primary == variant.options.primary).map Variant.id)
    match p.images.find? fun i =>
        match i.variantId with
        | some n => sameGroupIds.contains n
        | none => false with
    | some groupMatch =>
      if groupMatch.url = "" then jsOptStrOrD p.thumbnail "" else groupMatch.url
    | none => jsOptStrOrD p.thumbnail ""

/-- The fallback chain exactly as claim C6 words it: (a) the url of an
image entry matching the variant id; else (b) the url of an image entry
owned by a same-primary variant — returned unconditionally; else (c) the
thumbnail; else (d) `""`. -/
def resolveImageClaimC6 (p : Product) (variant : Variant) : String :=
  match p.images.find? fun i => i.variantId == some variant.id with
  | some exact => exact.url
  | none =>
    let sameGroupIds :=
      ((p.variants.filter fun v => v.options.primary == variant.options.primary).map Variant.id)
    match p.images.find? fun i =>
        match i.variantId with
        | some n => sameGroupIds.contains n
        | none => false with
    | some groupMatch => groupMatch.url
    | none => jsOptStrOrD p.thumbnail ""

/-- The amended wording of claim C6: tier (b) only yields the first
group-matching image entry's url when that url is nonempty; an empty
group-match url falls through to the thumbnail (and to `""` when the
thumbnail is absent or empty). -/
def resolveImageAmendedC6 (p : Product) (variant : Variant) : String :=
  match p.images.find? fun i => i.variantId == some variant.id with
  | some exact => exact.url
  | none =>
    let sameGroupIds :=
      ((p.variants.filter fun v => v.options.primary == variant.options.primary).map Variant.id)
    match p.images.find? fun i =>
        match i.variantId with
        | some n => sameGroupIds.contains n
        | none => false with
    | some groupMatch =>
      if groupMatch.url = "" then jsOptStrOrD p.thumbnail "" else groupMatch.url
    | none => jsOptStrOrD p.thumbnail ""

/-! ### Cart store (context/CartContext.js and the product-page script) -/

/-- A cart line as built by `handleAddToCart`
(components/ProductModal.js:62-72). -/
structure CartItem where
  variantId : Nat
  name : String
  variantLabel : String
  price : ℚ
  currency : String
  thumbnail : Option String
  quantity : Nat
deriving DecidableEq, Repr

/-- Embeds `addToCart(item)` (context/CartContext.js:22-35, same merge as the
product-page `handleAddToCart`): when a line with the same `variantId`
exists, set its quantity to `min(20, existing + added)`; otherwise
append the new line. -/
def addToCart (cart : List CartItem) (item : CartItem) : List CartItem :=
  if cart.any fun i => i.variantId == item.variantId then
    cart.map fun i =>
      if i.variantId == item.variantId then
        { i with quantity := min 20 (i.quantity + item.quantity) }
      else i
  else cart ++ [item]

/-- Embeds `removeFromCart(variantId)` (context/CartContext.js:37-43). -/
def removeFromCart (cart : List CartItem) (variantId : Nat) : List CartItem :=
  cart.filter fun i => i.variantId != variantId

/-! ### Shipping estimator state (product-page script, src/unnamed/part_004) -/

/-- A shipping rate option as received from `/api/shipping-rates`. -/
structure ShippingOption where
  id : String
  name : String
  rate : ℚ
  currency : String
  minDays : Option Nat
  maxDays : Option Nat
deriving DecidableEq, Repr

/-- The product page's mutable state that the cart/shipping handlers
touch: the cart, the selected shipping option, the rendered rate list
(`shippingRatesList`) and the visibility of the shipping-total row. -/
structure PageState where
  cart : List CartItem
  selectedShippingOption : Option ShippingOption
  displayedRates : List ShippingOption
  shippingRowVisible : Bool
deriving DecidableEq, Repr

/-- Embeds `updateShippingDisplay()` (part_004:345-365): the shipping/grand-total
rows are shown exactly when an option is selected and the cart is
nonempty. -/
def updateShippingDisplay (s : PageState) : PageState :=
  if s.selectedShippingOption.isSome && !s.cart.isEmpty then
    { s with shippingRowVisible := true }
  else
    { s with shippingRowVisible := false }

/-- Embeds `resetShipping()` (part_004:338-343): clear the selection and the
rendered rates, then refresh the display. -/
def resetShipping (s : PageState) : PageState :=
  updateShippingDisplay { s with selectedShippingOption := none, displayedRates := [] }

/-- The display half of `renderCart()` (part_004:198-236): with an empty
cart it clears the item list and returns early; otherwise it ends by
calling `updateShippingDisplay`. -/
def renderCartState (s : PageState) : PageState :=
  if s.cart.isEmpty then s else updateShippingDisplay s

/-- Embeds `handleAddToCart()` (part_004:168-188): merge/append the line, save,
`resetShipping()`, `renderCart()`. -/
def handleAddToCartEvent (s : PageState) (item : CartItem) : PageState :=
  renderCartState (resetShipping { s with cart := addToCart s.cart item })

/-- The remove handler wired inside `renderCart()` (part_004:221-229):
filter the line out, save, `resetShipping()`, `renderCart()`. -/
def removeLineEvent (s : PageState) (variantId : Nat) : PageState :=
  renderCartState (resetShipping { s with cart := removeFromCart s.cart variantId })

/-- The successful branch of `calcShipping()` (part_004:301-329): display
the rates and auto-select the first one. -/
def calcShippingSuccess (s : PageState) (rates : List ShippingOption) : PageState :=
  if s.cart.isEmpty then s
  else match rates with
    | [] => s
    | r :: _ =>
      updateShippingDisplay { s with displayedRates := rates, selectedShippingOption := some r }

/-- The rate radio-button change handler (part_004:324-329). -/
def selectRateEvent (s : PageState) (r : ShippingOption) : PageState :=
  if s.displayedRates.contains r then
    updateShippingDisplay { s with selectedShippingOption := some r }
  else s

/-! ### Persisted cart loading (`loadCart`, part_004:193-195) -/

/-- A JSON value, the result of a successful `JSON.parse`. -/
inductive Json where
  | null
  | bool (b : Bool)
  | num (q : ℚ)
  | str (s : String)
  | arr (elems : List Json)
  | obj (fields : List (String × Json))

/-- JS truthiness of a parsed JSON value (`NaN` cannot result from
`JSON.parse`). -/
def Json.truthy : Json → Bool
  | .null => false
  | .bool b => b
  | .num q => q != 0
  | .str s => s != ""
  | .arr _ => true
  | .obj _ => true

/-- Embeds `loadCart()` (part_004:193-195, same shape as the `CartProvider`
effect):
`try { return JSON.parse(localStorage.getItem(KEY)) || []; } catch { return []; }`.
The input is the outcome of `JSON.parse` on the stored string — `none`
models a parse exception (and `some .null` the `getItem` null /
literal-null cases). -/
def loadCart (parsed : Option Json) : Json :=
  match parsed with
  | none => .arr []
  | some v => if v.truthy then v else .arr []

/-! ### Checkout validation (pages/api/create-checkout.js) -/

/-- A request line item of `POST /api/create-checkout` (untrusted JSON, so
the numbers are arbitrary rationals and the id an arbitrary integer). -/
structure CheckoutItem where
  variantId : Int
  quantity : ℚ
  name : String
  price : ℚ
  currency : Option String
  variantLabel : Option String
  thumbnail : Option String
deriving DecidableEq, Repr

/-- Floor of a rational, written with `Int.fdiv` so that it evaluates by
kernel reduction. -/
def ratFloor (q : ℚ) : Int := Int.fdiv q.num q.den

/-- JS `Math.round(q)`: floor of `q + 1/2` (JS rounds half toward `+∞`). -/
def jsRound (q : ℚ) : Int := ratFloor (q + 1/2)

/-- A Stripe line item as built in the handler
(pages/api/create-checkout.js:31-42). -/
structure StripeLineItem where
  currency : String
  name : String
  description : Option String
  images : List String
  unit_amount : Int
  quantity : ℚ
deriving DecidableEq, Repr

/-- The line-item construction (pages/api/create-checkout.js:31-42). -/
def toLineItem (it : CheckoutItem) : StripeLineItem where
  currency := jsToLower (jsOptStrOrD it.currency "EUR")
  name := it.name
  description := jsStrTruthy it.variantLabel
  images := match jsStrTruthy it.thumbnail with
    | some t => [t]
    | none => []
  unit_amount := jsRound (it.price * 100)
  quantity := it.quantity

/-- The per-item structure check (pages/api/create-checkout.js:22):
`!item.variantId || !item.quantity || !item.name || !item.price`. -/
def itemStructBad (it : CheckoutItem) : Bool :=
  it.variantId == 0 || it.quantity == 0 || it.name == "" || it.price == 0

/-- The per-item range check (pages/api/create-checkout.js:25):
`item.quantity < 1 || item.quantity > 20`. -/
def itemQtyBad (it : CheckoutItem) : Bool :=
  decide (it.quantity < 1) || decide (20 < it.quantity)

/-- The validation loop (pages/api/create-checkout.js:21-28): first
offending item decides the 400 message. -/
def validateItems : List CheckoutItem → Option String
  | [] => none
  | it :: rest =>
    if itemStructBad it then some "Invalid cart item structure"
    else if itemQtyBad it then some "Invalid quantity"
    else validateItems rest

/-- Outcome of the handler on a POST body: an early 400, or the call to
the payment provider with the built line items. -/
inductive CheckoutOutcome where
  | httpError (status : Nat) (msg : String)
  | providerCall (lineItems : List StripeLineItem)
deriving DecidableEq, Repr

/-- The handler core (pages/api/create-checkout.js:15-60): empty cart →
400 "Cart is empty"; a failing item → its 400; otherwise the provider is
called with the built line items. -/
def createCheckout (items : List CheckoutItem) : CheckoutOutcome :=
  if items.isEmpty then .httpError 400 "Cart is empty"
  else match validateItems items with
    | some msg => .httpError 400 msg
    | none => .providerCall (items.map toLineItem)

/-! ### Concrete fixtures used by witnesses and counterexamples -/

/-- A raw variant with a defined retail price. -/
def rvBlackM : RawVariant := ⟨11, "Overlay Tee - Black / M", some "SKU-M", some 25, some "EUR", "active", []⟩

/-- A second priced raw variant of the same product. -/
def rvBlackL : RawVariant := ⟨12, "Overlay Tee - Black / L", none, some 27, some "EUR", "active", []⟩

/-- A raw variant whose retail price is missing. -/
def rvNoPrice : RawVariant := ⟨13, "Overlay Tee - Red / M", none, none, some "EUR", "active", []⟩

/-- A raw product fixture. -/
def spTee : RawProduct := ⟨7, "Overlay Tee", some "https://img/thumb.png"⟩

/-- Cart line for variant id 501 with the given quantity. -/
def cartLine501 (q : Nat) : CartItem := ⟨501, "Overlay Tee", "Black / M", 25, "EUR", none, q⟩

/-- A cart line with quantity 50, well above the 20 cap. -/
def itemQ50 : CartItem := ⟨502, "Overlay Tee", "Black / L", 27, "EUR", none, 50⟩

/-- Variant of primary group "A" (id 1). -/
def vGroupA : Variant := ⟨1, none, "P - A", "", 10, "EUR", ⟨"A", none⟩, true⟩

/-- Variant of primary group "B" (id 2). -/
def vGroupB : Variant := ⟨2, none, "P - B", "", 12, "EUR", ⟨"B", none⟩, true⟩

/-- A product holding the two groups "A" and "B", used against claim C5. -/
def productAB : Product :=
  ⟨9, "9-p", "P", some "T", [], "other", none, 10, 12, "EUR",
    [vGroupA, vGroupB], groupVariants [vGroupA, vGroupB]⟩

/-- Two size variants of one color group "A" (ids 1 and 2). -/
def vSizeM : Variant := ⟨1, none, "P - A / M", "", 10, "EUR", ⟨"A", some "M"⟩, true⟩

/-- Second size variant of group "A". -/
def vSizeL : Variant := ⟨2, none, "P - A / L", "", 12, "EUR", ⟨"A", some "L"⟩, true⟩

/-- A product whose only image entry is owned by variant 2 of the same
group as variant 1 but carries an empty url, used against claim C6. -/
def productEmptyUrl : Product :=
  ⟨9, "9-p", "P", some "T", [⟨some 2, "", false⟩], "other", none, 10, 12, "EUR",
    [vSizeM, vSizeL], groupVariants [vSizeM, vSizeL]⟩

/-- A checkout line with a negative price (passes every handler check). -/
def itemNegPrice : CheckoutItem := ⟨1, 1, "Map", -5, none, none, none⟩

/-- The non-integral rational 5/2, built in lowest terms so that kernel
reduction never has to normalize it. -/
def fiveHalves : ℚ := Rat.mk' 5 2 (by decide) (by decide)

/-- A checkout line with the fractional quantity 5/2 (passes every
handler check). -/
def itemFracQty : CheckoutItem := ⟨1, fiveHalves, "Map", 10, none, none, none⟩

/-- A fully valid checkout line. -/
def itemValid : CheckoutItem := ⟨3, 2, "Map", 30, some "EUR", some "Black / M", none⟩

/-- A shipping option fixture. -/
def optStandard : ShippingOption := ⟨"STANDARD", "Flat Rate", 5, "EUR", some 3, some 5⟩

/-- Scenario E start state: two cart lines totalling quantity 5, a held
shipping selection and a visible shipping row. -/
def stateScenarioE : PageState :=
  ⟨[cartLine501 2, itemQ50], some optStandard, [optStandard], true⟩

end OverlayMaps

namespace OverlayMaps

/-! ## Helper lemmas -/

/-- When no cart line carries the added line's `variantId`, `addToCart`
appends. -/
theorem addToCart_of_absent (cart : List CartItem) (item : CartItem)
    (h : ∀ l ∈ cart, l.variantId ≠ item.variantId) :
    addToCart cart item = cart ++ [item] := by
  have hc : (cart.any fun i => i.variantId == item.variantId) = false := by
    rw [List.any_eq_false]
    intro l hl
    simpa using h l hl
  simp [addToCart, hc]

/-- When some cart line carries the added line's `variantId`, `addToCart`
maps the merge update over the cart. -/
theorem addToCart_of_present (cart : List CartItem) (item : CartItem)
    (h : ∃ l ∈ cart, l.variantId = item.variantId) :
    addToCart cart item = cart.map fun i =>
      if i.variantId == item.variantId then
        { i with quantity := min 20 (i.quantity + item.quantity) }
      else i := by
  have hc : (cart.any fun i => i.variantId == item.variantId) = true := by
    rw [List.any_eq_true]
    obtain ⟨l, hl, he⟩ := h
    exact ⟨l, hl, by simpa using he⟩
  simp [addToCart, hc]

/-- Adding the same unit line `n ≥ 1` times to the empty cart leaves one
line with quantity `min 20 n`. -/
theorem iterate_addToCart (item : CartItem) (h1 : item.quantity = 1) :
    ∀ n, 1 ≤ n → (fun c => addToCart c item)^[n] [] = [{ item with quantity := min 20 n }] := by
  intro n
  induction n with
  | zero => omega
  | succ n ih =>
    intro _
    by_cases hn : 1 ≤ n
    · rw [Function.iterate_succ_apply', ih hn]
      simp only [addToCart, List.any_cons, List.any_nil, Bool.or_false, beq_self_eq_true,
        if_true, List.map_cons, List.map_nil]
      congr 2
      rw [h1]
      omega
    · have hn0 : n = 0 := by omega
      subst hn0
      rw [Function.iterate_one]
      rw [addToCart_of_absent [] item (by simp)]
      have hq : min 20 (0 + 1) = item.quantity := by rw [h1]; omega
      rw [hq]
      simp

/-- Key list of an `insertGroup`: unchanged when the key exists, the key
appended otherwise. -/
theorem insertGroup_keys (gs : List (String × List Variant)) (k : String) (v : Variant) :
    (insertGroup gs k v).map Prod.fst =
      if k ∈ gs.map Prod.fst then gs.map Prod.fst else gs.map Prod.fst ++ [k] := by
  induction gs with
  | nil => simp [insertGroup]
  | cons g rest ih =>
    by_cases hg : g.1 = k
    · simp [insertGroup, hg]
    · simp only [insertGroup, if_neg hg, List.map_cons, ih, List.mem_cons]
      by_cases hk : k ∈ rest.map Prod.fst
      · simp [hk, Ne.symm hg]
      · simp [hk, Ne.symm hg]

/-- Lemma: `insertGroup` keeps the key list duplicate-free. -/
theorem insertGroup_keys_nodup (gs : List (String × List Variant)) (k : String) (v : Variant)
    (h : (gs.map Prod.fst).Nodup) : ((insertGroup gs k v).map Prod.fst).Nodup := by
  rw [insertGroup_keys]
  split
  · exact h
  · next hk => simp [List.nodup_append, h, hk]

/-- Lemma: `insertGroup` keeps every bucket member carrying the bucket key as
its primary option. -/
theorem insertGroup_mem_prop (gs : List (String × List Variant)) (k : String) (v : Variant)
    (h : ∀ g ∈ gs, ∀ x ∈ g.2, x.options.primary = g.1) (hk : v.options.primary = k) :
    ∀ g ∈ insertGroup gs k v, ∀ x ∈ g.2, x.options.primary = g.1 := by
  induction gs with
  | nil =>
    intro g hg x hx
    simp only [insertGroup, List.mem_singleton] at hg
    subst hg
    simp only [List.mem_singleton] at hx
    subst hx
    exact hk
  | cons g0 rest ih =>
    intro g hg x hx
    simp only [insertGroup] at hg
    split at hg
    · next h0 =>
      rcases List.mem_cons.mp hg with hg1 | hg1
      · subst hg1
        rcases List.mem_append.mp hx with hx1 | hx1
        · exact h _ (List.mem_cons_self _ _) x hx1
        · rw [List.mem_singleton] at hx1
          subst hx1
          exact hk.trans h0.symm
      · exact h g (List.mem_cons_of_mem _ hg1) x hx
    · rcases List.mem_cons.mp hg with hg1 | hg1
      · subst hg1
        exact h _ (List.mem_cons_self _ _) x hx
      · exact ih (fun g2 hg2 => h g2 (List.mem_cons_of_mem _ hg2)) g hg1 x hx

/-- Membership across all buckets after an `insertGroup`. -/
theorem insertGroup_flatMap_mem (gs : List (String × List Variant)) (k : String) (v x : Variant) :
    x ∈ (insertGroup gs k v).flatMap Prod.snd ↔ x ∈ gs.flatMap Prod.snd ∨ x = v := by
  induction gs with
  | nil => simp [insertGroup]
  | cons g0 rest ih =>
    simp only [insertGroup]
    split
    · rw [List.flatMap_cons, List.mem_append, List.flatMap_cons, List.mem_append,
        List.mem_append, List.mem_singleton]
      tauto
    · rw [List.flatMap_cons, List.mem_append, List.flatMap_cons, List.mem_append, ih]
      tauto


/-- The grouping fold preserves distinct keys and the key/primary
agreement of bucket members. -/
theorem groupVariants_foldl_inv (vs : List Variant) :
    ∀ gs : List (String × List Variant),
      (gs.map Prod.fst).Nodup →
      (∀ g ∈ gs, ∀ x ∈ g.2, x.options.primary = g.1) →
      ((vs.foldl (fun gs v => insertGroup gs v.options.primary v) gs).map Prod.fst).Nodup
      ∧ ∀ g ∈ vs.foldl (fun gs v => insertGroup gs v.options.primary v) gs,
          ∀ x ∈ g.2, x.options.primary = g.1 := by
  induction vs with
  | nil => intro gs h1 h2; exact ⟨h1, h2⟩
  | cons v rest ih =>
    intro gs h1 h2
    exact ih _ (insertGroup_keys_nodup gs _ v h1) (insertGroup_mem_prop gs _ v h2 rfl)

/-- Membership across all buckets produced by the grouping fold. -/
theorem groupVariants_foldl_flatMap (vs : List Variant) :
    ∀ (gs : List (String × List Variant)) (x : Variant),
      x ∈ (vs.foldl (fun gs v => insertGroup gs v.options.primary v) gs).flatMap Prod.snd
        ↔ x ∈ gs.flatMap Prod.snd ∨ x ∈ vs := by
  induction vs with
  | nil => simp
  | cons v rest ih =>
    intro gs x
    rw [List.foldl_cons, ih, insertGroup_flatMap_mem, List.mem_cons]
    tauto

/-- Lemma: `groupVariants` partitions its input: distinct keys, members keyed by
their primary option, bucket union equal to the input as a set, and each
input variant in exactly one bucket. -/
theorem groupVariants_partition (l : List Variant) :
    ((groupVariants l).map Prod.fst).Nodup
    ∧ (∀ g ∈ groupVariants l, ∀ x ∈ g.2, x.options.primary = g.1)
    ∧ (∀ x, x ∈ (groupVariants l).flatMap Prod.snd ↔ x ∈ l)
    ∧ (∀ x ∈ l, ∃! g, g ∈ groupVariants l ∧ x ∈ g.2) := by
  have base := groupVariants_foldl_inv l [] (by simp) (by simp)
  have hmem : ∀ x, x ∈ (groupVariants l).flatMap Prod.snd ↔ x ∈ l := by
    intro x
    rw [groupVariants, groupVariants_foldl_flatMap]
    simp
  refine ⟨base.1, base.2, hmem, ?_⟩
  intro x hx
  obtain ⟨g, hg, hxg⟩ := List.mem_flatMap.mp ((hmem x).mpr hx)
  refine ⟨g, ⟨hg, hxg⟩, ?_⟩
  rintro g2 ⟨hg2, hxg2⟩
  have e1 : x.options.primary = g.1 := base.2 g hg x hxg
  have e2 : x.options.primary = g2.1 := base.2 g2 hg2 x hxg2
  exact List.inj_on_of_nodup_map base.1 hg2 hg (e2.symm.trans e1)

/-- A normalized product carries `variantGroups = groupVariants variants`. -/
theorem transformProduct_variantGroups (sp : RawProduct) (svs : List RawVariant)
    (prod : Product) (h : transformProduct sp svs = some prod) :
    prod.variantGroups = groupVariants prod.variants := by
  unfold transformProduct at h
  simp only at h
  split at h
  · exact absurd h (by simp)
  · rw [Option.some_inj] at h
    subst h
    rfl

/-- Lemma: `transformProduct` is `null` exactly when no raw variant carries a
defined retail price. -/
theorem transformProduct_none_iff (sp : RawProduct) (svs : List RawVariant) :
    transformProduct sp svs = none ↔ ∀ r ∈ svs, r.retail_price = none := by
  unfold transformProduct
  simp only
  split
  · next he =>
    simp only [true_iff]
    rw [List.isEmpty_iff, List.map_eq_nil_iff, List.filter_eq_nil_iff] at he
    intro r hr
    have h2 := he r hr
    cases hrp : r.retail_price with
    | none => rfl
    | some q => rw [hrp] at h2; simp at h2
  · next he =>
    simp only [reduceCtorEq, false_iff, not_forall]
    rw [List.isEmpty_iff, List.map_eq_nil_iff, List.filter_eq_nil_iff] at he
    push_neg at he
    obtain ⟨r, hr, hp⟩ := he
    refine ⟨r, hr, fun hnone => ?_⟩
    rw [hnone] at hp
    simp at hp

/-- A normalized product has a nonempty variant list and every variant
originates from a raw variant with that defined price. -/
theorem transformProduct_some_variants (sp : RawProduct) (svs : List RawVariant) (prod : Product)
    (h : transformProduct sp svs = some prod) :
    prod.variants ≠ [] ∧ ∀ v ∈ prod.variants, ∃ r ∈ svs, r.retail_price = some v.price := by
  unfold transformProduct at h
  simp only at h
  split at h
  · exact absurd h (by simp)
  · next he =>
    rw [Option.some_inj] at h
    subst h
    refine ⟨by simpa [List.isEmpty_iff] using he, ?_⟩
    intro v hv
    simp only [List.mem_map] at hv
    obtain ⟨r, hrf, hmk⟩ := hv
    rw [List.mem_filter] at hrf
    obtain ⟨hrs, hsome⟩ := hrf
    obtain ⟨q, hq⟩ := Option.isSome_iff_exists.mp hsome
    refine ⟨r, hrs, ?_⟩
    rw [hq]
    subst hmk
    simp [mkVariant, hq]

/-- Heads of a nonempty prefix agree. -/
theorem prefix_head_eq {l1 l2 : List Char} (h : l1 <+: l2) (hne : l1 ≠ []) :
    l1.head? = l2.head? := by
  obtain ⟨s, hs⟩ := h
  subst hs
  cases l1 with
  | nil => exact absurd rfl hne
  | cons a t => rfl

/-- The trimmed list is a prefix of the front-trimmed list. -/
theorem trimL_prefix_dropWhile (l : List Char) : trimL l <+: l.dropWhile isJsSpace := by
  unfold trimL
  have h := List.dropWhile_suffix (l := (l.dropWhile isJsSpace).reverse) isJsSpace
  have h2 := List.reverse_prefix.mpr h
  simpa using h2

/-- The head surviving a `dropWhile` falsifies the predicate. -/
theorem head_dropWhile_not (p : Char → Bool) (l : List Char) (c : Char)
    (h : (l.dropWhile p).head? = some c) : p c = false := by
  induction l with
  | nil => cases h
  | cons a t ih =>
    rw [List.dropWhile_cons] at h
    split at h
    · exact ih h
    · next hp =>
      injection h with h2
      subst h2
      simpa using hp

/-- A trimmed list never starts with whitespace. -/
theorem trimL_head_not_space (l : List Char) (c : Char) (h : (trimL l).head? = some c) :
    isJsSpace c = false := by
  have hne : trimL l ≠ [] := by intro h0; rw [h0] at h; cases h
  have h1 := prefix_head_eq (trimL_prefix_dropWhile l) hne
  rw [h] at h1
  exact head_dropWhile_not isJsSpace l c h1.symm

/-- Trimming a list that starts with a non-space character cannot empty
it. -/
theorem trimL_ne_nil_of_head (c : Char) (t : List Char) (hc : isJsSpace c = false) :
    trimL (c :: t) ≠ [] := by
  unfold trimL
  rw [List.dropWhile_cons, if_neg (by simp [hc])]
  intro h0
  rw [List.reverse_eq_nil_iff, List.dropWhile_eq_nil_iff] at h0
  have h2 := h0 c (by simp)
  rw [hc] at h2
  exact Bool.noConfusion h2

/-- The first fragment a split produces extends the pending accumulator. -/
theorem splitSepFuel_head (sep : List Char) :
    ∀ (fuel : Nat) (l acc : List Char),
      ∃ u rest2, splitSepFuel sep fuel l acc = (acc.reverse ++ u) :: rest2 := by
  intro fuel
  induction fuel with
  | zero => intro l acc; exact ⟨l, [], rfl⟩
  | succ n ih =>
    intro l acc
    cases l with
    | nil => exact ⟨[], [], by simp [splitSepFuel]⟩
    | cons c rest =>
      by_cases hp : sep.isPrefixOf (c :: rest)
      · exact ⟨[], splitSepFuel sep n (List.drop sep.length (c :: rest)) [],
          by simp [splitSepFuel, hp]⟩
      · obtain ⟨u, r2, hu⟩ := ih rest (c :: acc)
        exact ⟨c :: u, r2, by simp [splitSepFuel, hp, hu]⟩

/-- When stripping leaves a nonempty string, splitting it on `" / "`
yields at least one non-blank part: the stripped string starts with a
non-space character, which survives both the split and the trim. -/
theorem parseParts_ne_nil (v p : String)
    (hs3 : jsTrim ⟨(jsReplaceFirst v p).data.dropWhile isSepChar⟩ ≠ "") :
    parseParts v p ≠ [] := by
  have hopt : parseOptionStr v p = jsTrim ⟨(jsReplaceFirst v p).data.dropWhile isSepChar⟩ := by
    unfold parseOptionStr
    rw [if_neg hs3]
  have hdata : (parseOptionStr v p).data ≠ [] := by
    intro h0
    apply hs3
    rw [← hopt]
    exact String.ext h0
  cases hd : (parseOptionStr v p).data with
  | nil => exact absurd hd hdata
  | cons c t =>
    have hcs : isJsSpace c = false := by
      apply trimL_head_not_space ((⟨(jsReplaceFirst v p).data.dropWhile isSepChar⟩ : String)).data
      have h4 : (parseOptionStr v p).data
          = trimL ((⟨(jsReplaceFirst v p).data.dropWhile isSepChar⟩ : String)).data := by
        rw [hopt]; rfl
      rw [← h4, hd]
      rfl
    have hcne : (' ' == c) = false := by
      cases hcc : (' ' == c) with
      | false => rfl
      | true =>
        have h5 : ' ' = c := by simpa using hcc
        subst h5
        simp [isJsSpace] at hcs
    have hsep : ([' ', '/', ' '].isPrefixOf (c :: t)) = false := by
      simp [List.isPrefixOf]
      intro h
      rw [← h] at hcne
      simp at hcne
    have hsplit : jsSplit (parseOptionStr v p) " / "
        = (splitSepFuel [' ', '/', ' '] ((parseOptionStr v p).data.length + 1)
            (parseOptionStr v p).data []).map (fun l => (⟨l⟩ : String)) := rfl
    obtain ⟨u, r2, hu⟩ := splitSepFuel_head [' ', '/', ' '] (t.length + 1) t [c]
    have hfrag : jsSplit (parseOptionStr v p) " / "
        = (⟨c :: u⟩ : String) :: r2.map (fun l => (⟨l⟩ : String)) := by
      rw [hsplit, hd]
      show (splitSepFuel [' ', '/', ' '] (t.length + 1 + 1) (c :: t) []).map _ = _
      rw [show splitSepFuel [' ', '/', ' '] (t.length + 1 + 1) (c :: t) []
            = splitSepFuel [' ', '/', ' '] (t.length + 1) t [c] by
        simp [splitSepFuel, hsep]]
      rw [hu]
      simp
    unfold parseParts
    rw [hfrag]
    have htr : jsTrim (⟨c :: u⟩ : String) ≠ "" := by
      intro h0
      have h6 : trimL (c :: u) = [] := by
        have h7 := congrArg String.data h0
        simpa [jsTrim] using h7
      exact trimL_ne_nil_of_head c u hcs h6
    simp only [List.map_cons, List.filter_cons]
    rw [if_pos (by simpa [bne_iff_ne] using htr)]
    intro h0
    cases h0

/-- A zero-part split only happens on the fallback path, so the parsing
result is the raw variant name. -/
theorem parseParts_nil_fallback (v p : String) (h : parseParts v p = []) :
    parseVariantName v p = ⟨v, none⟩ := by
  by_cases hs3 : jsTrim ⟨(jsReplaceFirst v p).data.dropWhile isSepChar⟩ = ""
  · unfold parseVariantName
    rw [h]
    show (⟨parseOptionStr v p, none⟩ : VOptions) = ⟨v, none⟩
    unfold parseOptionStr
    rw [if_pos hs3]
  · exact absurd h (parseParts_ne_nil v p hs3)

/-! ## Claim C1 — variant option parsing -/

/-- Claim C1 is false as stated: the code removes the *first occurrence*
of the product name anywhere in the raw variant name, not only a prefix.
On raw name "X Overlay Tee - Black / M" with product name "Overlay Tee"
the code yields primary "X  - Black" while the claimed prefix-stripping
procedure yields primary "X Overlay Tee - Black". -/
theorem parseVariantName_claimC1_counterexample :
    parseVariantName "X Overlay Tee - Black / M" "Overlay Tee" = ⟨"X  - Black", some "M"⟩
    ∧ parseVariantNameClaimC1 "X Overlay Tee - Black / M" "Overlay Tee"
        = ⟨"X Overlay Tee - Black", some "M"⟩
    ∧ parseVariantName "X Overlay Tee - Black / M" "Overlay Tee"
        ≠ parseVariantNameClaimC1 "X Overlay Tee - Black / M" "Overlay Tee" :=
  ⟨by decide, by decide, by decide⟩

/-- Claim C1, amended: option parsing strips the *first occurrence* of
the product's name anywhere in the raw variant name (with the leading
`-`, `/`, whitespace separators and surrounding whitespace), falls back
to the raw name when stripping leaves the empty string, splits on
`" / "` dropping blank parts, and returns first/second, single/null or
raw/null according to the part count.  Scenario A holds as claimed. -/
theorem parseVariantName_amendedC1 :
    (∀ variantName productName,
      parseVariantName variantName productName
        = parseVariantNameAmendedC1 variantName productName)
    ∧ parseVariantName "Overlay Tee - Black / M" "Overlay Tee" = ⟨"Black", some "M"⟩
    ∧ (∀ variantName productName, parseParts variantName productName = [] →
        parseVariantName variantName productName = ⟨variantName, none⟩) :=
  ⟨fun _ _ => rfl, by decide, parseParts_nil_fallback⟩

/-- Witness for the amended C1: a raw name made only of separators
yields zero parts and parses to the raw string itself. -/
theorem parseVariantName_amendedC1_witness :
    parseVariantName " / " "zzz" = ⟨" / ", none⟩ :=
  parseVariantName_amendedC1.2.2 " / " "zzz" (by decide)

/-! ## Claim C2 — cart merge and idempotence -/

/-- Claim C2: adding a line whose `variantId` is already in the cart
merges into the existing line with quantity `min 20 (old + new)` and
appends nothing; `n ≥ 1` unit additions of one variant to the empty cart
leave exactly one line with quantity `min 20 n`; and adding variant 501
with quantity 3 then 19 leaves one line of quantity 20. -/
theorem addToCart_merges_capped :
    (∀ (cart : List CartItem) (item : CartItem),
      (∃ l ∈ cart, l.variantId = item.variantId) →
      (addToCart cart item).length = cart.length
      ∧ addToCart cart item = cart.map fun i =>
          if i.variantId == item.variantId then
            { i with quantity := min 20 (i.quantity + item.quantity) }
          else i)
    ∧ (∀ item : CartItem, item.quantity = 1 → ∀ n, 1 ≤ n →
        (fun c => addToCart c item)^[n] [] = [{ item with quantity := min 20 n }])
    ∧ addToCart (addToCart [] (cartLine501 3)) (cartLine501 19) = [cartLine501 20] := by
  refine ⟨fun cart item h => ⟨?_, addToCart_of_present cart item h⟩,
    iterate_addToCart, by decide⟩
  rw [addToCart_of_present cart item h, List.length_map]

/-- Witness for C2 at a concrete input: 25 unit additions of variant 501
to the empty cart leave one line with quantity 20. -/
theorem addToCart_merges_capped_witness :
    (fun c => addToCart c (cartLine501 1))^[25] [] = [cartLine501 20] := by
  have h := addToCart_merges_capped.2.1 (cartLine501 1) rfl 25 (by omega)
  exact h

/-! ## Claim C10 — the append path does not clamp -/

/-- Claim C10: adding a line for an absent `variantId` appends it with
its quantity unchanged — the 20 cap is enforced only on the merge
path. -/
theorem addToCart_append_unclamped :
    ∀ (cart : List CartItem) (item : CartItem),
      (∀ l ∈ cart, l.variantId ≠ item.variantId) →
      addToCart cart item = cart ++ [item] :=
  addToCart_of_absent

/-- Witness for C10: a quantity of 50 — far beyond the cap — survives the
append path untouched. -/
theorem addToCart_append_unclamped_witness :
    addToCart [] itemQ50 = [itemQ50] ∧ itemQ50.quantity = 50 ∧ 20 < itemQ50.quantity :=
  ⟨addToCart_append_unclamped [] itemQ50 (by simp), rfl, by decide⟩

/-! ## Claim C3 — variantGroups partitions variants -/

/-- Claim C3: for every normalized product, `variantGroups` is an exact
partition of `variants`: group keys are distinct, every member of a
group carries the group's key as its `options.primary`, the union of the
groups equals `variants` as a set, and every variant lies in exactly one
group. -/
theorem variantGroups_is_partition (sp : RawProduct) (svs : List RawVariant) (prod : Product)
    (h : transformProduct sp svs = some prod) :
    ((prod.variantGroups.map Prod.fst).Nodup)
    ∧ (∀ g ∈ prod.variantGroups, ∀ v ∈ g.2, v.options.primary = g.1)
    ∧ (∀ v, v ∈ prod.variantGroups.flatMap Prod.snd ↔ v ∈ prod.variants)
    ∧ (∀ v ∈ prod.variants, ∃! g, g ∈ prod.variantGroups ∧ v ∈ g.2) := by
  rw [transformProduct_variantGroups sp svs prod h]
  exact groupVariants_partition prod.variants

/-- Witness for C3 on a concrete normalized product. -/
theorem variantGroups_is_partition_witness :
    ∃ prod, transformProduct spTee [rvBlackM, rvBlackL, rvNoPrice] = some prod
      ∧ (prod.variantGroups.map Prod.fst).Nodup
      ∧ ∀ v ∈ prod.variants, ∃! g, g ∈ prod.variantGroups ∧ v ∈ g.2 := by
  cases hp : transformProduct spTee [rvBlackM, rvBlackL, rvNoPrice] with
  | none => exact absurd hp (by decide)
  | some prod =>
    have h := variantGroups_is_partition spTee [rvBlackM, rvBlackL, rvNoPrice] prod hp
    exact ⟨prod, rfl, h.1, h.2.2.2⟩

/-! ## Claim C4 — the price filter and null products -/

/-- Claim C4: `transformProduct` returns `null` exactly when no raw
variant has a defined retail price; otherwise every normalized variant's
price stems from a defined raw price; and the catalog assembly drops the
`null` results, so a product with no priced variants never appears in
the listing. -/
theorem normalize_null_iff_unpriced :
    (∀ (sp : RawProduct) (svs : List RawVariant),
      transformProduct sp svs = none ↔ ∀ r ∈ svs, r.retail_price = none)
    ∧ (∀ (sp : RawProduct) (svs : List RawVariant) (prod : Product),
        transformProduct sp svs = some prod →
          prod.variants ≠ [] ∧ ∀ v ∈ prod.variants, ∃ r ∈ svs, r.retail_price = some v.price)
    ∧ (∀ (pages : List (RawProduct × List RawVariant)) (prod : Product),
        prod ∈ catalogOf pages →
          ∃ pr ∈ pages, transformProduct pr.1 pr.2 = some prod ∧ prod.variants ≠ []) := by
  refine ⟨transformProduct_none_iff, transformProduct_some_variants, ?_⟩
  intro pages prod hp
  unfold catalogOf at hp
  rw [List.mem_filterMap] at hp
  obtain ⟨o, ho, hid⟩ := hp
  rw [List.mem_map] at ho
  obtain ⟨pr, hpr, ho2⟩ := ho
  rw [id] at hid
  subst hid
  exact ⟨pr, hpr, ho2, (transformProduct_some_variants pr.1 pr.2 prod ho2).1⟩

/-- Witness for C4: a product whose only raw variant lacks a price
normalizes to `null`. -/
theorem normalize_null_iff_unpriced_witness :
    transformProduct spTee [rvNoPrice] = none :=
  (normalize_null_iff_unpriced.1 spTee [rvNoPrice]).mpr (by
    intro r hr
    rw [List.mem_singleton] at hr
    subst hr
    rfl)

/-! ## Claim C5 — selectSecondary and the selected group -/

/-- Claim C5 is false as stated: `selectSecondary` searches *all* of the
product's variants, never the currently selected primary group, and a
miss raises nothing.  With primary group "A" selected on `productAB`,
variant id 2 lies only in group "B", yet the code returns that variant
instead of failing with `NotFoundError`. -/
theorem selectSecondary_claimC5_counterexample :
    selectSecondary productAB 2 = some vGroupB
    ∧ selectSecondaryClaimC5 productAB "A" 2 = none
    ∧ vGroupB.options.primary ≠ "A"
    ∧ (∀ v ∈ lookupGroup productAB "A", v.id ≠ 2) :=
  ⟨by decide, by decide, by decide, by decide⟩

/-- Claim C5, amended: `selectSecondary` looks the id up among all the
product's variants regardless of the selected primary group — a found
variant is returned even from another group, and an id absent from the
whole product leaves the selection undefined (`none`), with no
`NotFoundError` anywhere. -/
theorem selectSecondary_amendedC5 :
    ∀ (p : Product) (variantId : Nat),
      (∀ v, selectSecondary p variantId = some v → v ∈ p.variants ∧ v.id = variantId)
      ∧ (selectSecondary p variantId = none ↔ ∀ v ∈ p.variants, v.id ≠ variantId) := by
  intro p i
  constructor
  · intro v hv
    have hm := List.mem_of_find?_eq_some hv
    have hp := List.find?_some hv
    exact ⟨hm, by simpa using hp⟩
  · simp only [selectSecondary, List.find?_eq_none, beq_iff_eq]

/-- Witness for the amended C5 on a concrete product. -/
theorem selectSecondary_amendedC5_witness :
    vGroupB ∈ productAB.variants ∧ vGroupB.id = 2 :=
  (selectSecondary_amendedC5 productAB 2).1 vGroupB (by decide)

/-! ## Claim C6 — display-image fallback order -/

/-- Claim C6 is false as stated: when the first group-matching image
entry carries an *empty* url, `groupMatch?.url || p.thumbnail || ''`
falls through to the thumbnail, while the claimed order (b)-then-(c)
would return that entry's url.  On `productEmptyUrl` the code yields the
thumbnail "T" where the claim demands `""`. -/
theorem resolveImage_claimC6_counterexample :
    resolveImage productEmptyUrl vSizeM = "T"
    ∧ resolveImageClaimC6 productEmptyUrl vSizeM = ""
    ∧ ("T" : String) ≠ ""
    ∧ productEmptyUrl.images = [⟨some 2, "", false⟩]
    ∧ vSizeL.id = 2 ∧ vSizeL.options.primary = vSizeM.options.primary :=
  ⟨by decide, by decide, by decide, by decide, by decide, by decide⟩

/-- Claim C6, amended: the fallback order is (a) the url of the first
image entry matching the selected variant's id; else (b) the url of the
first image entry owned by a same-primary variant *when that url is
nonempty*; else (c) the product's thumbnail when present and nonempty;
else (d) the empty string. -/
theorem resolveImage_amendedC6 :
    ∀ (p : Product) (v : Variant), resolveImage p v = resolveImageAmendedC6 p v :=
  fun _ _ => rfl

/-! ## Claim C8 — shipping invalidation on cart mutation -/

/-- After `resetShipping` followed by `renderCart` the selection reads
absent, the rate list is cleared and the shipping row is hidden. -/
theorem shipping_reset_after_mutation (s : PageState) :
    (renderCartState (resetShipping s)).selectedShippingOption = none
    ∧ (renderCartState (resetShipping s)).displayedRates = []
    ∧ (renderCartState (resetShipping s)).shippingRowVisible = false := by
  unfold renderCartState resetShipping updateShippingDisplay
  simp

/-- Claim C8: both cart mutations of the product page — add-to-cart and
line removal — leave the shipping selection `null`, the displayed rates
cleared and the shipping-total row hidden, before any new estimate can
be requested; in particular Scenario E: removing a line from a
two-line cart with a held selection nulls the selection and hides the
row. -/
theorem shipping_invalidated_on_mutation :
    (∀ (s : PageState) (item : CartItem),
      (handleAddToCartEvent s item).selectedShippingOption = none
      ∧ (handleAddToCartEvent s item).displayedRates = []
      ∧ (handleAddToCartEvent s item).shippingRowVisible = false)
    ∧ (∀ (s : PageState) (variantId : Nat),
      (removeLineEvent s variantId).selectedShippingOption = none
      ∧ (removeLineEvent s variantId).displayedRates = []
      ∧ (removeLineEvent s variantId).shippingRowVisible = false)
    ∧ (removeLineEvent stateScenarioE 501).cart = [itemQ50]
    ∧ (removeLineEvent stateScenarioE 501).selectedShippingOption = none
    ∧ (removeLineEvent stateScenarioE 501).shippingRowVisible = false := by
  refine ⟨fun s item => ?_, fun s variantId => ?_, by decide, by decide, by decide⟩
  · exact shipping_reset_after_mutation _
  · exact shipping_reset_after_mutation _

/-! ## Claim C7 — checkout validation before the provider call -/

/-- The validation loop passes exactly when every item passes both
checks. -/
theorem validateItems_eq_none_iff (items : List CheckoutItem) :
    validateItems items = none ↔ ∀ it ∈ items, itemStructBad it = false ∧ itemQtyBad it = false := by
  induction items with
  | nil => simp [validateItems]
  | cons it rest ih =>
    unfold validateItems
    by_cases h1 : itemStructBad it
    · simp [h1]
    · by_cases h2 : itemQtyBad it
      · simp [h1, h2]
      · simp only [Bool.not_eq_true] at h1 h2
        simp [h1, h2, ih]

/-- The validation loop only ever produces its two 400 messages. -/
theorem validateItems_msgs (items : List CheckoutItem) (msg : String)
    (h : validateItems items = some msg) :
    msg = "Invalid cart item structure" ∨ msg = "Invalid quantity" := by
  induction items with
  | nil => simp [validateItems] at h
  | cons it rest ih =>
    unfold validateItems at h
    by_cases h1 : itemStructBad it
    · rw [if_pos h1, Option.some_inj] at h
      exact Or.inl h.symm
    · rw [if_neg h1] at h
      by_cases h2 : itemQtyBad it
      · rw [if_pos h2, Option.some_inj] at h
        exact Or.inr h.symm
      · rw [if_neg h2] at h
        exact ih h

/-- Claim C7 is false as stated: a line with a negative price, and a
line with the fractional quantity 5/2 in range, both pass every check of
the handler and reach the payment provider, although the claim demands
an `InvalidLineError` for a non-positive price and for a non-integer
quantity. -/
theorem checkout_claimC7_counterexample :
    createCheckout [itemNegPrice] = .providerCall [toLineItem itemNegPrice]
    ∧ itemNegPrice.price < 0
    ∧ createCheckout [itemFracQty] = .providerCall [toLineItem itemFracQty]
    ∧ itemFracQty.quantity.den ≠ 1
    ∧ 1 ≤ itemFracQty.quantity ∧ itemFracQty.quantity ≤ 20 :=
  ⟨rfl, by decide, rfl, by decide, by decide, by decide⟩

/-- Claim C7, amended: the handler validates before any provider call —
an empty list fails with 400 "Cart is empty" (and the provider is
structurally unreachable on that path); a line with a falsy
variantId/quantity/name/price or a quantity outside [1, 20] fails with a
distinct 400; the provider is called exactly when the list is nonempty
and every line passes these checks.  Positivity of the price and
integrality of the quantity are *not* checked. -/
theorem checkout_validation_amendedC7 :
    (∀ items : List CheckoutItem,
      createCheckout items = .httpError 400 "Cart is empty" ↔ items = [])
    ∧ (∀ (items : List CheckoutItem) (lineItems : List StripeLineItem),
        createCheckout items = .providerCall lineItems →
          items ≠ [] ∧ lineItems = items.map toLineItem
          ∧ ∀ it ∈ items, itemStructBad it = false ∧ itemQtyBad it = false)
    ∧ (∀ items : List CheckoutItem, items ≠ [] →
        (∃ it ∈ items, itemStructBad it = true ∨ itemQtyBad it = true) →
        ∃ msg, createCheckout items = .httpError 400 msg ∧ msg ≠ "Cart is empty")
    ∧ (∀ items : List CheckoutItem, items ≠ [] →
        (∀ it ∈ items, itemStructBad it = false ∧ itemQtyBad it = false) →
        createCheckout items = .providerCall (items.map toLineItem)) := by
  have hne : ∀ items : List CheckoutItem, items ≠ [] → items.isEmpty = false := by
    intro items h
    cases items with
    | nil => exact absurd rfl h
    | cons a l => rfl
  refine ⟨?_, ?_, ?_, ?_⟩
  · intro items
    constructor
    · intro h
      by_contra hne2
      rw [createCheckout, if_neg (by simp [hne items hne2])] at h
      cases hv : validateItems items with
      | none => rw [hv] at h; cases h
      | some msg =>
        rw [hv] at h
        injection h with h1 h2
        rcases validateItems_msgs items msg hv with h3 | h3 <;> rw [h3] at h2 <;>
          exact absurd h2 (by decide)
    · intro h
      subst h
      rfl
  · intro items lineItems h
    rw [createCheckout] at h
    by_cases he : items.isEmpty
    · rw [if_pos he] at h; cases h
    · rw [if_neg he] at h
      cases hv : validateItems items with
      | some msg => rw [hv] at h; cases h
      | none =>
        rw [hv] at h
        cases h
        refine ⟨by simpa [List.isEmpty_iff] using he, rfl, ?_⟩
        exact (validateItems_eq_none_iff items).mp hv
  · intro items h hex
    rw [createCheckout, if_neg (by simp [hne items h])]
    cases hv : validateItems items with
    | some msg =>
      refine ⟨msg, rfl, ?_⟩
      rcases validateItems_msgs items msg hv with h2 | h2 <;> simp [h2]
    | none =>
      obtain ⟨it, hit, hbad⟩ := hex
      have := (validateItems_eq_none_iff items).mp hv it hit
      rcases hbad with hb | hb
      · rw [this.1] at hb; cases hb
      · rw [this.2] at hb; cases hb
  · intro items h hall
    rw [createCheckout, if_neg (by simp [hne items h]),
      (validateItems_eq_none_iff items).mpr hall]

/-- Witness for the amended C7 on a fully valid line. -/
theorem checkout_validation_amendedC7_witness :
    createCheckout [itemValid] = .providerCall [toLineItem itemValid] := by
  have h := checkout_validation_amendedC7.2.2.2 [itemValid] (by simp)
    (by intro it hit; rw [List.mem_singleton] at hit; subst hit; exact ⟨by decide, by decide⟩)
  simpa using h

/-! ## Claim C9 — tolerating corrupted persisted carts -/

/-- Claim C9 is false as stated: a stored string that parses as a truthy
JSON value which is not a cart array — e.g. an empty object literal —
is returned as the cart unchanged instead of being reset to the empty
cart. -/
theorem loadCart_claimC9_counterexample :
    loadCart (some (Json.obj [])) = Json.obj []
    ∧ ∀ lines : List Json, Json.obj [] ≠ Json.arr lines :=
  ⟨rfl, fun _ h => Json.noConfusion h⟩

/-- Claim C9, amended: `loadCart` never throws; when `JSON.parse` fails
or yields a falsy value (including the `null` of an absent key) it
returns the empty cart; but a truthy parsed value is returned as-is even
when it is not a cart array. -/
theorem loadCart_amendedC9 :
    loadCart none = Json.arr []
    ∧ (∀ v : Json, v.truthy = false → loadCart (some v) = Json.arr [])
    ∧ (∀ v : Json, v.truthy = true → loadCart (some v) = v)
    ∧ loadCart (some Json.null) = Json.arr [] := by
  refine ⟨rfl, fun v hv => ?_, fun v hv => ?_, rfl⟩
  · simp [loadCart, hv]
  · simp [loadCart, hv]

/-- Witness for the amended C9: a falsy parse resets to the empty cart, a
truthy non-array parse is returned unchanged. -/
theorem loadCart_amendedC9_witness :
    loadCart (some (Json.str "")) = Json.arr []
    ∧ loadCart (some (Json.obj [⟨"a", Json.num 1⟩])) = Json.obj [⟨"a", Json.num 1⟩] :=
  ⟨loadCart_amendedC9.2.1 (Json.str "") rfl,
   loadCart_amendedC9.2.2.1 (Json.obj [⟨"a", Json.num 1⟩]) rfl⟩

end OverlayMaps
